import Mathlib

/-!
Verification of the redis-rust in-memory key-value server.

The development shallowly embeds the Rust sources:
  * `src/storage.rs` — the typed storage engine (`Storage`), its value model
    (`StoredData`, `StoredValue`, `EntryId`), lazy expiration, the list
    commands, and the blocking-wait coordinator (`Waiter`, `notify_waiters`).
  * `src/command.rs` — the command handlers (`handle_get`, `handle_set`,
    `handle_lpop`, `handle_xadd`, argument extraction, reply formatting).
  * `src/lib.rs` — the incremental RESP decoder (`RespParser`).

Modelling conventions:
  * Rust byte strings (`Vec<u8>`) at the storage/command layer are modelled
    as Lean `String`s; under this identification `String::from_utf8_lossy`
    is the identity and `v.len()` is `String.utf8ByteSize`.  All claims at
    this layer concern UTF-8-clean data, where the identification is exact.
    The wire decoder of `src/lib.rs`, whose claims are about raw bytes, is
    modelled over `List Nat` byte buffers instead.
  * `SystemTime` instants are modelled as `Nat` milliseconds; each storage
    operation that calls `SystemTime::now()` takes the current instant as an
    explicit `now` argument.
  * The `HashMap<String, StoredValue>` keyspace is modelled as an
    association list with lookup / replace-insert / erase; iteration order
    of the map is never observed by the embedded operations.
  * `Result<T, String>` becomes `Except String T`; mutation of the store
    becomes explicit state passing (each operation returns the new store).
-/

namespace RedisRust

/-- Timestamps in milliseconds (model of `SystemTime`). -/
abbrev Instant := Nat

/-- Stream entry id: model of `EntryId { ms: u64, seq: u64 }` in
`src/storage.rs`. -/
structure EntryId where
  ms : Nat
  seq : Nat
deriving DecidableEq, Repr

/-- Lexicographic strict order on entry ids: model of `Ord for EntryId`
(`self.ms.cmp(&other.ms).then(self.seq.cmp(&other.seq))`). -/
def EntryId.lt (a b : EntryId) : Bool :=
  a.ms < b.ms || (a.ms = b.ms && a.seq < b.seq)

/-- Stream entry: model of `Entry { id, values }`; the field map is an
association list. -/
structure Entry where
  id : EntryId
  values : List (String × String)
deriving DecidableEq, Repr

/-- Model of `StoredData` in `src/storage.rs`. -/
inductive StoredData where
  | str (bytes : String)
  | list (items : List String)
  | stream (entries : List Entry)
deriving DecidableEq, Repr

/-- Model of `StoredValue { data, expired_at: Option<SystemTime> }`. -/
structure StoredValue where
  data : StoredData
  expiredAt : Option Instant
deriving DecidableEq, Repr

/-- Model of `StoredValue::is_expired`: `SystemTime::now() >= expire`. -/
def StoredValue.isExpired (now : Instant) (v : StoredValue) : Bool :=
  match v.expiredAt with
  | some e => e ≤ now
  | none => false

/-- Model of `StoredValue::as_string`. -/
def StoredValue.asString (v : StoredValue) : Option String :=
  match v.data with
  | .str bytes => some bytes
  | _ => none

/-- The keyspace `HashMap<String, StoredValue>` as an association list. -/
abbrev Store := List (String × StoredValue)

/-- Key lookup (`HashMap::get`). -/
def lookupS (key : String) : Store → Option StoredValue
  | [] => none
  | (k, v) :: rest => if k = key then some v else lookupS key rest

/-- Key removal (`HashMap::remove`). -/
def eraseKey (key : String) (st : Store) : Store :=
  st.filter (fun p => p.1 ≠ key)

/-- Key insertion with replacement (`HashMap::insert`). -/
def insertS (key : String) (v : StoredValue) (st : Store) : Store :=
  (key, v) :: eraseKey key st

/-- Literal `WRONGTYPE` error text from `src/storage.rs`. -/
def WRONGTYPE : String :=
  "WRONGTYPE Operation against a key holding the wrong kind of value"

/-- Model of `Storage::set`. -/
def setS (key value : String) (st : Store) : Store :=
  insertS key ⟨.str value, none⟩ st

/-- Model of `Storage::set_ex` (`now + Duration::from_secs(seconds)`). -/
def setExS (key value : String) (seconds : Nat) (now : Instant) (st : Store) : Store :=
  insertS key ⟨.str value, some (now + seconds * 1000)⟩ st

/-- Model of `Storage::set_px` (`now + Duration::from_millis(milliseconds)`). -/
def setPxS (key value : String) (milliseconds : Nat) (now : Instant) (st : Store) : Store :=
  insertS key ⟨.str value, some (now + milliseconds)⟩ st

/-- Model of `Storage::get`: expired entries are removed and read as absent;
non-`String` kinds yield `None` via `as_string`. -/
def getS (st : Store) (now : Instant) (key : String) : Option String × Store :=
  match lookupS key st with
  | some sv =>
      if sv.isExpired now then (none, eraseKey key st)
      else (sv.asString, st)
  | none => (none, st)

/-- Model of `Storage::exists`: a bare `contains_key`, with no expiry
check (the function does not consult the clock at all). -/
def existsS (st : Store) (key : String) : Bool :=
  (lookupS key st).isSome

/-- Model of `Storage::delete`. -/
def deleteS (st : Store) (key : String) : Bool × Store :=
  match lookupS key st with
  | some _ => (true, eraseKey key st)
  | none => (false, st)

/-- Model of `Storage::get_type`: expired entries read as `"none"`, but the
function holds only a read path and never removes them (the second
component is returned unchanged, mirroring the immutable lock guard). -/
def getTypeS (st : Store) (now : Instant) (key : String) : String × Store :=
  match lookupS key st with
  | none => ("none", st)
  | some sv =>
      if sv.isExpired now then ("none", st)
      else
        match sv.data with
        | .list _ => ("list", st)
        | .str _ => ("string", st)
        | .stream _ => ("stream", st)

/-- Model of `Storage::llen`. -/
def llenS (st : Store) (now : Instant) (key : String) : Except String Nat × Store :=
  match lookupS key st with
  | none => (.ok 0, st)
  | some sv =>
      if sv.isExpired now then (.ok 0, eraseKey key st)
      else
        match sv.data with
        | .list l => (.ok l.length, st)
        | _ => (.error WRONGTYPE, st)

/-- Model of `Storage::lrange`.  Index normalization follows the source:
negative indices are offset by the length and clamped at 0; a
non-negative `end` at or past the length is clamped to `len - 1`.
The source computes `list.len() - 1` in `usize`; for the (unreachable)
empty stored list this is modelled by truncated `Nat` subtraction. -/
def lrangeS (st : Store) (now : Instant) (key : String) (start stop : Int) :
    Except String (List String) × Store :=
  match lookupS key st with
  | none => (.ok [], st)
  | some sv =>
      if sv.isExpired now then (.ok [], eraseKey key st)
      else
        match sv.data with
        | .list l =>
            let len : Int := l.length
            let startIdx : Nat :=
              if start < 0 then (max (len + start) 0).toNat else start.toNat
            let endIdx : Nat :=
              if stop < 0 then (max (len + stop) 0).toNat
              else if stop ≥ len then l.length - 1
              else stop.toNat
            if startIdx > endIdx ∨ startIdx ≥ l.length then (.ok [], st)
            else (.ok ((l.drop startIdx).take (endIdx + 1 - startIdx)), st)
        | _ => (.error WRONGTYPE, st)

/-- Model of `Storage::lpop`: pops the head of the list; removes the key
when the list was or becomes empty; expired entries are removed and read
as absent. -/
def lpopS (st : Store) (now : Instant) (key : String) :
    Except String (Option String) × Store :=
  match lookupS key st with
  | none => (.ok none, st)
  | some sv =>
      if sv.isExpired now then (.ok none, eraseKey key st)
      else
        match sv.data with
        | .list l =>
            match l with
            | [] => (.ok none, eraseKey key st)
            | x :: rest =>
                if rest.isEmpty then (.ok (some x), eraseKey key st)
                else (.ok (some x), insertS key ⟨.list rest, sv.expiredAt⟩ st)
        | _ => (.error WRONGTYPE, st)

/-- Model of `Storage::lpop_multiple`: clamps `count` to the list length,
drains that prefix, and removes the key when the list was or becomes
empty. -/
def lpopMultipleS (st : Store) (now : Instant) (key : String) (count : Nat) :
    Except String (Option (List String)) × Store :=
  match lookupS key st with
  | none => (.ok none, st)
  | some sv =>
      if sv.isExpired now then (.ok none, eraseKey key st)
      else
        match sv.data with
        | .list l =>
            if l.isEmpty then (.ok none, eraseKey key st)
            else
              let c := min count l.length
              let elems := l.take c
              let rest := l.drop c
              if rest.isEmpty then (.ok (some elems), eraseKey key st)
              else (.ok (some elems), insertS key ⟨.list rest, sv.expiredAt⟩ st)
        | _ => (.error WRONGTYPE, st)

/-- Model of `Waiter { keys, sender }`: the single-slot channel is replaced
by a waiter identifier; a delivery is reported as `(wid, key, value)`. -/
structure Waiter where
  wid : Nat
  keys : List String
deriving DecidableEq, Repr

/-- Combined shared state: the keyspace plus the FIFO waiter queue. -/
structure DState where
  store : Store
  waiters : List Waiter
deriving DecidableEq, Repr

/-- Model of `Storage::notify_waiters`: remove the first waiter whose key
set contains `key` from the queue, perform one `lpop` on `key`, and if it
yielded a value deliver `(key, value)` to that waiter.  At most one waiter
is notified per call. -/
def notifyWaitersS (key : String) (now : Instant) (d : DState) :
    DState × Option (Nat × String × String) :=
  match d.waiters.findIdx? (fun w => key ∈ w.keys) with
  | none => (d, none)
  | some i =>
      let ws' := d.waiters.eraseIdx i
      match d.waiters[i]? with
      | none => (d, none)
      | some w =>
          match lpopS d.store now key with
          | (.ok (some v), st') => (⟨st', ws'⟩, some (w.wid, key, v))
          | (_, st') => (⟨st', ws'⟩, none)

/-- Model of `Storage::rpush`: append the values at the tail (creating the
list if the key is absent or expired), then call `notify_waiters` exactly
once before returning.  The third component lists the deliveries made
(zero or one). -/
def rpushW (key : String) (values : List String) (now : Instant) (d : DState) :
    Except String Nat × DState × List (Nat × String × String) :=
  match lookupS key d.store with
  | some sv =>
      if sv.isExpired now then
        let st2 := insertS key ⟨.list values, none⟩ (eraseKey key d.store)
        let (d', deliv) := notifyWaitersS key now ⟨st2, d.waiters⟩
        (.ok values.length, d', deliv.toList)
      else
        match sv.data with
        | .list l =>
            let st2 := insertS key ⟨.list (l ++ values), sv.expiredAt⟩ d.store
            let (d', deliv) := notifyWaitersS key now ⟨st2, d.waiters⟩
            (.ok (l.length + values.length), d', deliv.toList)
        | _ => (.error WRONGTYPE, d, [])
  | none =>
      let st2 := insertS key ⟨.list values, none⟩ d.store
      let (d', deliv) := notifyWaitersS key now ⟨st2, d.waiters⟩
      (.ok values.length, d', deliv.toList)

/-- Outcome of the non-blocking part of `Storage::blpop` (everything the
function decides before it enqueues a waiter and blocks). -/
inductive BlpopFast where
  | errp (msg : String)
  | popped (key : String) (value : String) (st : Store)
  | wouldBlock (st : Store)
deriving DecidableEq, Repr

/-- Model of the scan loop of `Storage::blpop`: for each key in order,
first fail with `WRONGTYPE` if the key currently holds a non-`List` value
(no expiry check at this point, mirroring the source), then `lpop` the key
(propagating its error via `?`) and return on the first popped element.
If the scan finds nothing the caller proceeds to enqueue a waiter. -/
def blpopFastS (now : Instant) (st : Store) : List String → BlpopFast
  | [] => .wouldBlock st
  | key :: rest =>
      let typeOk :=
        match lookupS key st with
        | some sv =>
            match sv.data with
            | .list _ => true
            | _ => false
        | none => true
      if typeOk then
        match lpopS st now key with
        | (.ok (some v), st') => .popped key v st'
        | (.ok none, st') => blpopFastS now st' rest
        | (.error e, _) => .errp e
      else .errp WRONGTYPE

/-- Digit accumulation for decimal parsing. -/
def digitsToNat : List Char → Option Nat
  | [] => none
  | cs =>
      if cs.all (fun c => '0' ≤ c ∧ c ≤ '9') then
        some (cs.foldl (fun acc c => acc * 10 + (c.toNat - 48)) 0)
      else none

/-- Model of Rust `u64::from_str`: optional leading `+`, one or more ASCII
digits, value below `2 ^ 64`. -/
def parseU64Str (s : String) : Option Nat :=
  let cs := s.data
  let body := if cs.head? = some '+' then cs.tail else cs
  match digitsToNat body with
  | some n => if n < 2 ^ 64 then some n else none
  | none => none

/-- Model of Rust `i64::from_str`: optional sign, one or more ASCII digits,
value within the `i64` range. -/
def parseI64Str (s : String) : Option Int :=
  let cs := s.data
  match cs.head? with
  | some '-' =>
      match digitsToNat cs.tail with
      | some n => if n ≤ 2 ^ 63 then some (-(n : Int)) else none
      | none => none
  | some '+' =>
      match digitsToNat cs.tail with
      | some n => if n < 2 ^ 63 then some (n : Int) else none
      | none => none
  | _ =>
      match digitsToNat cs with
      | some n => if n < 2 ^ 63 then some (n : Int) else none
      | none => none

/-- Splitting a character list at every occurrence of a separator
character (model of Rust `str::split` with a single-character pattern:
always at least one piece, empty pieces preserved). -/
def splitChar (sep : Char) : List Char → List (List Char)
  | [] => [[]]
  | c :: rest =>
      match splitChar sep rest with
      | [] => [[]]
      | g :: gs => if c = sep then [] :: g :: gs else (c :: g) :: gs

/-- Model of `FromStr for EntryId` in `src/storage.rs`: split on `-`,
parse both parts as `u64`, reject a missing part or extra parts.  Error
strings are the source literals. -/
def parseEntryId (s : String) : Except String EntryId :=
  match (splitChar '-' s.data).map String.mk with
  | [] => .error "Missing first part: {ms}-{sequence}"
  | a :: rest =>
      match parseU64Str a with
      | none => .error "Invalid first id part"
      | some ms =>
          match rest with
          | [] => .error "Missing second part: {ms}-{sequence}"
          | b :: rest2 =>
              match parseU64Str b with
              | none => .error "Invalid sequence second id part"
              | some seq =>
                  if rest2.isEmpty then .ok ⟨ms, seq⟩
                  else .error "Too many parts in ID"

/-- Model of `Storage::xadd` in `src/storage.rs` lines 479-486: the body
is `todo!()`, an unconditional panic — the function never produces a
result for any input.  The panic is modelled as `none`. -/
def xaddS (_st : Store) (_now : Instant) (_key : String) (_id : String)
    (_values : List (String × String)) : Option (Except String String × Store) :=
  none

/-- Model of `RespValue` in `src/lib.rs` as the command layer sees it
(byte payloads identified with `String`, see the header). -/
inductive RespValue where
  | simpleString (s : String)
  | error (s : String)
  | integer (i : Int)
  | bulkString (b : Option String)
  | array (elems : Option (List RespValue))
deriving Repr

/-- Character-wise uppercasing (model of Rust `to_uppercase`, which is
Unicode; `Char.toUpper` agrees with it on the ASCII command tokens that
occur in the commands and claims below). -/
def upperStr (s : String) : String :=
  String.mk (s.data.map Char.toUpper)

/-- Model of `extract_command_name`: uppercase the bulk/simple string,
empty string otherwise. -/
def extractCommandName (v : RespValue) : String :=
  match v with
  | .bulkString (some cmd) => upperStr cmd
  | .simpleString cmd => upperStr cmd
  | _ => ""

/-- Model of `extract_key`: note that on a non-string argument the source
returns the literal error text as the key. -/
def extractKey (v : RespValue) : String :=
  match v with
  | .bulkString (some s) => s
  | .simpleString s => s
  | _ => "-ERR Invalid key type\r\n"

/-- Model of `extract_integer_from_resp_value`. -/
def extractIntegerFromRespValue (v : RespValue) : Option Int :=
  match v with
  | .integer i => some i
  | .bulkString (some bytes) => parseI64Str bytes
  | .simpleString s => parseI64Str s
  | _ => none

/-- Bulk-string reply `format!("${}\r\n{}\r\n", v.len(), lossy(v))`. -/
def bulkReply (v : String) : String :=
  "$" ++ toString v.utf8ByteSize ++ "\r\n" ++ v ++ "\r\n"

/-- Model of `format_array` in `src/command.rs`. -/
def formatArray (items : List String) : String :=
  if items.isEmpty then "*0\r\n"
  else "*" ++ toString items.length ++ "\r\n" ++ String.join (items.map bulkReply)

/-- Model of `handle_get`: argument check, then `Storage::get`; a present
string is a bulk reply, everything else is the null bulk `$-1\r\n`. -/
def handleGet (elements : List RespValue) (st : Store) (now : Instant) :
    String × Store :=
  if elements.length < 2 then
    ("-ERR wrong number of arguments for \x27GET\x27 command\r\n", st)
  else
    let key := extractKey (elements.getD 1 (.bulkString none))
    match getS st now key with
    | (some v, st') => (bulkReply v, st')
    | (none, st') => ("$-1\r\n", st')

/-- Model of the option-scanning `while` loop of `handle_set`: walk the
arguments after the value two at a time, recognising `EX`/`PX` (each
overwriting the accumulated expiration), rejecting a missing argument
with a syntax error, a non-positive or non-integer argument with the
invalid-expire error, and any other option with the unexpected-option
error (whose source text carries no trailing CRLF).  The accumulator is
`(amount, isMilliseconds)`. -/
def parseSetOpts : List RespValue → Option (Nat × Bool) →
    Except String (Option (Nat × Bool))
  | [], acc => .ok acc
  | opt :: rest, _acc =>
      let o := extractCommandName opt
      if o = "EX" then
        match rest with
        | [] => .error "-ERR syntax error\r\n"
        | v :: rest' =>
            match extractIntegerFromRespValue v with
            | some s =>
                if s > 0 then parseSetOpts rest' (some (s.toNat, false))
                else .error "-ERR invalid expire time in \x27SET\x27 command\r\n"
            | none => .error "-ERR invalid expire time in \x27SET\x27 command\r\n"
      else if o = "PX" then
        match rest with
        | [] => .error "-ERR syntax error\r\n"
        | v :: rest' =>
            match extractIntegerFromRespValue v with
            | some s =>
                if s > 0 then parseSetOpts rest' (some (s.toNat, true))
                else .error "-ERR invalid expire time in \x27SET\x27 command\r\n"
            | none => .error "-ERR invalid expire time in \x27SET\x27 command\r\n"
      else
        .error ("-ERR syntax error, unexpected option \x27" ++ o ++
          "\x27. Only \x27EX\x27 or \x27PX\x27 are allowed")

/-- Model of `handle_set`: argument checks, option scan, then one of
`set`, `set_ex`, `set_px`; every error path returns before touching the
store. -/
def handleSet (elements : List RespValue) (st : Store) (now : Instant) :
    String × Store :=
  if elements.length < 3 then
    ("-ERR wrong number of arguments for \x27SET\x27 command\r\n", st)
  else
    let key := extractKey (elements.getD 1 (.bulkString none))
    match elements.getD 2 (.array none) with
    | .bulkString (some value) => handleSetGo key value elements st now
    | .simpleString value => handleSetGo key value elements st now
    | _ => ("-ERR Invalid value type\r\n", st)
where
  handleSetGo (key value : String) (elements : List RespValue) (st : Store)
      (now : Instant) : String × Store :=
    match parseSetOpts (elements.drop 3) none with
    | .error e => (e, st)
    | .ok none => ("+OK\r\n", setS key value st)
    | .ok (some (n, false)) => ("+OK\r\n", setExS key value n now st)
    | .ok (some (n, true)) => ("+OK\r\n", setPxS key value n now st)

/-- The `i as isize` / `as usize` double cast of `handle_lpop` on a 64-bit
target: two's-complement reinterpretation of an `i64` as a `usize`. -/
def usizeOfInt (i : Int) : Nat :=
  (i % (2 ^ 64 : Int)).toNat

/-- Model of `handle_lpop`: the two-argument form pops one element; the
three-argument form parses the count with
`extract_integer_from_resp_value` and passes `count as usize` to
`lpop_multiple` — no sign check is performed on a successfully parsed
count. -/
def handleLpop (elements : List RespValue) (st : Store) (now : Instant) :
    String × Store :=
  match elements.length with
  | 2 =>
      let key := extractKey (elements.getD 1 (.bulkString none))
      match lpopS st now key with
      | (.ok (some v), st') => (bulkReply v, st')
      | (.ok none, st') => ("$-1\r\n", st')
      | (.error e, st') => ("-" ++ e ++ "\r\n", st')
  | 3 =>
      let key := extractKey (elements.getD 1 (.bulkString none))
      match extractIntegerFromRespValue (elements.getD 2 (.array none)) with
      | none => ("value is out of range, must be positive\r\n", st)
      | some i =>
          match lpopMultipleS st now key (usizeOfInt i) with
          | (.ok (some items), st') => (formatArray items, st')
          | (.ok none, st') => ("$-1\r\n", st')
          | (.error e, st') => ("-" ++ e ++ "\r\n", st')
  | _ => ("-ERR wrong number of arguments for command\r\n", st)

/-- Field/value pair collection of `handle_xadd`
(`elements[3..].windows(2).step_by(2)` with `HashMap::insert` replace
semantics, modelled as replace-insert on an association list). -/
def collectXaddPairs : List RespValue → List (String × String) →
    Except String (List (String × String))
  | [], acc => .ok acc
  | k :: v :: rest, acc =>
      let key : Except String String :=
        match k with
        | .bulkString (some s) => .ok s
        | .simpleString s => .ok s
        | _ => .error "-ERR Invalid key type\r\n"
      match key with
      | .error e => .error e
      | .ok ks =>
          match v with
          | .bulkString (some s) =>
              collectXaddPairs rest ((ks, s) :: acc.filter (fun p => p.1 ≠ ks))
          | .simpleString s =>
              collectXaddPairs rest ((ks, s) :: acc.filter (fun p => p.1 ≠ ks))
          | _ => .error "-ERR Invalid key type\r\n"
  | [_], _acc => .ok _acc

/-- Model of `handle_xadd`: argument-count check (at least one field/value
pair, an even number of post-id arguments), id extraction, pair
collection, then the call into `Storage::xadd`.  A success would reply
with the assigned id as a bulk string and a storage error with
`-<err>\r\n`, but since `Storage::xadd` is a `todo!()` panic stub the
call never returns — the propagated panic is `none`. -/
def handleXadd (elements : List RespValue) (st : Store) (now : Instant) :
    Option (String × Store) :=
  if elements.length < 5 ∨ (elements.length - 3) % 2 ≠ 0 then
    some ("-ERR wrong number of arguments for command\r\n", st)
  else
    let streamName := extractKey (elements.getD 1 (.bulkString none))
    match elements.getD 2 (.array none) with
    | .bulkString (some id) => handleXaddGo streamName id elements st now
    | .simpleString id => handleXaddGo streamName id elements st now
    | _ => some ("-ERR Invalid stream ID specified as stream command argument\r\n", st)
where
  handleXaddGo (streamName id : String) (elements : List RespValue)
      (st : Store) (now : Instant) : Option (String × Store) :=
    match collectXaddPairs (elements.drop 3) [] with
    | .error e => some (e, st)
    | .ok values =>
        match xaddS st now streamName id values with
        | some (.ok s, st') => some (bulkReply s, st')
        | some (.error e, st') => some ("-" ++ e ++ "\r\n", st')
        | none => none

/-! ### The wire decoder of `src/lib.rs`, over raw byte buffers.

Bytes are `Nat`s; the decoder state `RespParser { byte_buffer }` is the
buffer itself.  Rust panics that the source can reach are modelled by
explicit outcomes rather than hidden behind total Lean functions: the
guarded accesses — the index `byte_buffer[pos]`, the slice
`byte_buffer[pos..]` inside `find_crlf`, and the `.unwrap()` on the
trailing-CRLF slice in `parse_bulk_string` — map to `panicked` (proven
unreachable below), and the `Vec::with_capacity` capacity-overflow
panic of `parse_array` maps to `capacityOverflow` (reachable).  `parse_value` recurses through `parse_array`; the
recursion is driven by a fuel parameter that strictly exceeds the
greatest possible nesting depth (each nesting level consumes at least
four bytes of array header, so `length + 1` fuel never runs out). -/

/-- Decoded RESP value over raw bytes (model of `RespValue` as produced by
the decoder; `String` payloads are kept as their UTF-8 bytes, validated
exactly where the source validates them). -/
inductive RValue where
  | simple (bytes : List Nat)
  | errv (bytes : List Nat)
  | intv (i : Int)
  | bulk (bytes : Option (List Nat))
  | arrv (elems : Option (List RValue))
deriving Repr

/-- Model of `ParseResult`, extended with the decoder's two panic
outcomes: `panicked` for an out-of-bounds access or a failed `unwrap`,
and `capacityOverflow` for the deterministic
`Vec::with_capacity(element_count)` panic in `parse_array` when the
requested capacity in bytes exceeds `isize::MAX`. -/
inductive ParseRes where
  | complete (v : RValue) (n : Nat)
  | incomplete
  | perror (msg : String)
  | panicked
  | capacityOverflow
deriving Repr

/-- Size in bytes of the Rust `RespValue` enum on the 64-bit target: an
8-byte tag plus the largest payload, a 24-byte `Vec`/`String` (pointer,
capacity, length).  `Vec::with_capacity(n)` panics with
`capacity overflow` when `n * respValueSize` exceeds `isize::MAX`. -/
def respValueSize : Nat := 32

/-- Model of `RespParser::has_bytes`: `pos + n <= self.byte_buffer.len()`. -/
def hasBytes (buf : List Nat) (pos n : Nat) : Bool :=
  pos + n ≤ buf.length

/-- Window scan of `find_crlf`: `windows(2)` over the remaining bytes,
returning the absolute index of the first `\r\n`. -/
def findCrlfIn : List Nat → Nat → Option Nat
  | b1 :: b2 :: rest, i =>
      if b1 = 13 ∧ b2 = 10 then some i else findCrlfIn (b2 :: rest) (i + 1)
  | _, _ => none

/-- Model of `RespParser::find_crlf`: the source slices
`byte_buffer[pos..]`, which panics when `pos` exceeds the length — that
panic is the outer `none`. -/
def findCrlf (buf : List Nat) (pos : Nat) : Option (Option Nat) :=
  if pos ≤ buf.length then some (findCrlfIn (buf.drop pos) pos) else none

/-- Model of `RespParser::get_slice`. -/
def getSlice (buf : List Nat) (start stop : Nat) : Option (List Nat) :=
  if start ≤ stop ∧ stop ≤ buf.length then
    some ((buf.drop start).take (stop - start))
  else none

/-- Decimal digit run over bytes (48–57), rejecting empty or non-digit. -/
def digitsToNatB : List Nat → Option Nat
  | [] => none
  | bs =>
      if bs.all (fun b => 48 ≤ b ∧ b ≤ 57) then
        some (bs.foldl (fun acc b => acc * 10 + (b - 48)) 0)
      else none

/-- Model of `RespParser::parse_i64` (`from_utf8` then `i64::from_str`):
an optional ASCII sign followed by ASCII digits within the `i64` range;
any other byte — including every non-ASCII one — is rejected by one of
the two stages. -/
def parseI64Bytes (bs : List Nat) : Option Int :=
  match bs.head? with
  | some 45 =>
      match digitsToNatB bs.tail with
      | some n => if n ≤ 2 ^ 63 then some (-(n : Int)) else none
      | none => none
  | some 43 =>
      match digitsToNatB bs.tail with
      | some n => if n < 2 ^ 63 then some (n : Int) else none
      | none => none
  | _ =>
      match digitsToNatB bs with
      | some n => if n < 2 ^ 63 then some (n : Int) else none
      | none => none

/-- UTF-8 continuation byte. -/
def contB (c : Nat) : Bool :=
  128 ≤ c ∧ c ≤ 191

/-- UTF-8 validity (model of the check done by `String::from_utf8`):
ASCII, two-, three- and four-byte sequences with the standard
overlong/surrogate/range exclusions. -/
def validUtf8 : List Nat → Bool
  | [] => true
  | b :: rest =>
      if b ≤ 127 then validUtf8 rest
      else if 194 ≤ b ∧ b ≤ 223 then
        match rest with
        | c1 :: r => contB c1 && validUtf8 r
        | [] => false
      else if 224 ≤ b ∧ b ≤ 239 then
        match rest with
        | c1 :: c2 :: r =>
            let lo := if b = 224 then 160 else 128
            let hi := if b = 237 then 159 else 191
            decide (lo ≤ c1 ∧ c1 ≤ hi) && contB c2 && validUtf8 r
        | _ => false
      else if 240 ≤ b ∧ b ≤ 244 then
        match rest with
        | c1 :: c2 :: c3 :: r =>
            let lo := if b = 240 then 144 else 128
            let hi := if b = 244 then 143 else 191
            decide (lo ≤ c1 ∧ c1 ≤ hi) && contB c2 && contB c3 && validUtf8 r
        | _ => false
      else false

/-- Byte-wise rendering used only inside decoder error-message text
(approximating `from_utf8_lossy`; exact on ASCII, and no theorem below
inspects these messages). -/
def lossyAscii (bs : List Nat) : String :=
  String.mk (bs.map (fun b => if b < 128 then Char.ofNat b else Char.ofNat 65533))

/-- Model of `RespParser::parse_simle_string` (source spelling). -/
def parseSimpleStringB (buf : List Nat) (pos : Nat) : ParseRes :=
  if ¬ hasBytes buf pos 1 then .incomplete
  else
    match findCrlf buf (pos + 1) with
    | none => .panicked
    | some none => .incomplete
    | some (some crlfPos) =>
        match getSlice buf (pos + 1) crlfPos with
        | none => .perror "Invalid slice range"
        | some content =>
            if validUtf8 content then
              .complete (.simple content) (crlfPos + 2 - pos)
            else .perror "Invalid UTF-8"

/-- Model of `RespParser::parse_error`. -/
def parseErrorB (buf : List Nat) (pos : Nat) : ParseRes :=
  if ¬ hasBytes buf pos 1 then .incomplete
  else
    match findCrlf buf (pos + 1) with
    | none => .panicked
    | some none => .incomplete
    | some (some crlfPos) =>
        match getSlice buf (pos + 1) crlfPos with
        | none => .perror "Invalid slice range"
        | some content =>
            if validUtf8 content then
              .complete (.errv content) (crlfPos + 2 - pos)
            else .perror "Invalid UTF-8"

/-- Model of `RespParser::parse_integer`. -/
def parseIntegerB (buf : List Nat) (pos : Nat) : ParseRes :=
  if ¬ hasBytes buf pos 1 then .incomplete
  else
    match findCrlf buf (pos + 1) with
    | none => .panicked
    | some none => .incomplete
    | some (some crlfPos) =>
        match getSlice buf (pos + 1) crlfPos with
        | none => .perror "Invalid slice range"
        | some content =>
            match parseI64Bytes content with
            | some i => .complete (.intv i) (crlfPos + 2 - pos)
            | none =>
                .perror ("Invalid integer format: \x27" ++ lossyAscii content ++ "\x27")

/-- Model of `RespParser::parse_bulk_string`.  The `.unwrap()` on the
trailing-CRLF slice becomes the `panicked` branch; it is guarded by the
preceding `has_bytes(content_end, 2)` check. -/
def parseBulkStringB (buf : List Nat) (pos : Nat) : ParseRes :=
  if ¬ hasBytes buf pos 1 then .incomplete
  else
    match findCrlf buf (pos + 1) with
    | none => .panicked
    | some none => .incomplete
    | some (some crlfPos) =>
        match getSlice buf (pos + 1) crlfPos with
        | none => .perror "Invalid slice range"
        | some lengthBytes =>
            match parseI64Bytes lengthBytes with
            | none => .perror "Invalid bulk string"
            | some len =>
                if len = -1 then .complete (.bulk none) (crlfPos + 2 - pos)
                else if len < -1 then
                  .perror ("Invalid bulk string length: " ++ toString len)
                else
                  let contentStart := crlfPos + 2
                  let contentEnd := contentStart + len.toNat
                  if ¬ hasBytes buf contentEnd 2 then .incomplete
                  else
                    match getSlice buf contentStart contentEnd with
                    | none => .perror "Invalid slice range"
                    | some content =>
                        match getSlice buf contentEnd (contentEnd + 2) with
                        | none => .panicked
                        | some trailing =>
                            if trailing = [13, 10] then
                              .complete (.bulk (some content)) (contentEnd + 2 - pos)
                            else .perror "Missing trailing CRLF"

/-- Outcome of the element loop of `parse_array`; the two panic outcomes
of a nested `parse_value` propagate (a Rust panic unwinds through the
loop). -/
inductive LoopRes where
  | done (elems : List RValue) (endPos : Nat)
  | linc
  | lerr (msg : String)
  | lpanic
  | lcap
deriving Repr

/-- The `for _ in 0..element_count` loop of `parse_array`, parameterised
by the recursive `parse_value` call. -/
def parseArrayLoopB (pv : Nat → ParseRes) : Nat → Nat → List RValue → LoopRes
  | 0, curPos, acc => .done acc curPos
  | n + 1, curPos, acc =>
      match pv curPos with
      | .complete v consumed => parseArrayLoopB pv n (curPos + consumed) (acc ++ [v])
      | .incomplete => .linc
      | .perror e => .lerr e
      | .panicked => .lpanic
      | .capacityOverflow => .lcap

/-- Model of `RespParser::parse_array`, with the recursive call supplied
by the caller.  For a positive count the source first runs
`Vec::with_capacity(element_count)`, which panics with
`capacity overflow` when `element_count * size_of::<RespValue>()`
exceeds `isize::MAX` — counts are accepted up to `i64::MAX`, so this
panic is reachable; it is modelled by the `capacityOverflow` outcome. -/
def parseArrayB (pv : Nat → ParseRes) (buf : List Nat) (pos : Nat) : ParseRes :=
  if ¬ hasBytes buf pos 1 then .incomplete
  else
    match findCrlf buf (pos + 1) with
    | none => .panicked
    | some none => .incomplete
    | some (some crlfPos) =>
        match getSlice buf (pos + 1) crlfPos with
        | none => .perror "Invalid slice range"
        | some countBytes =>
            match parseI64Bytes countBytes with
            | none => .perror "Invalid bulk string"
            | some count =>
                if count = -1 then .complete (.arrv none) (crlfPos + 2 - pos)
                else if count < -1 then
                  .perror ("Invalid array length: " ++ toString count)
                else if count = 0 then .complete (.arrv (some [])) (crlfPos + 2 - pos)
                else if count.toNat * respValueSize > 2 ^ 63 - 1 then .capacityOverflow
                else
                  match parseArrayLoopB pv count.toNat (crlfPos + 2) [] with
                  | .done elems endPos => .complete (.arrv (some elems)) (endPos - pos)
                  | .linc => .incomplete
                  | .lerr e => .perror e
                  | .lpanic => .panicked
                  | .lcap => .capacityOverflow

/-- Model of `RespParser::parse_value`: dispatch on the type prefix after
the `has_bytes` guard.  The fuel argument bounds array-nesting depth. -/
def parseValueF : Nat → List Nat → Nat → ParseRes
  | 0, _, _ => .incomplete
  | fuel + 1, buf, pos =>
      if ¬ hasBytes buf pos 1 then .incomplete
      else
        match buf[pos]? with
        | none => .panicked
        | some b =>
            if b = 43 then parseSimpleStringB buf pos
            else if b = 45 then parseErrorB buf pos
            else if b = 58 then parseIntegerB buf pos
            else if b = 36 then parseBulkStringB buf pos
            else if b = 42 then parseArrayB (parseValueF fuel buf) buf pos
            else .perror ("Unsupported type prefix: \x27" ++ (Char.ofNat b).toString ++ "\x27")

/-- Model of `RespParser::parse`: one decode attempt at the front of the
buffer.  The fuel `length + 1` strictly exceeds any reachable array
nesting depth. -/
def parseB (buf : List Nat) : ParseRes :=
  parseValueF (buf.length + 1) buf 0

/-- Model of `RespParser::feed`: append bytes to the buffer. -/
def feedB (buf data : List Nat) : List Nat :=
  buf ++ data

/-- Model of `RespParser::consume`: drain `n` bytes from the front. -/
def consumeB (buf : List Nat) (n : Nat) : List Nat :=
  buf.drop n

/-- One decode attempt as the connection loop performs it: `parse` takes
`&self`, so the attempt returns the result together with the (unchanged)
decoder state. -/
def decodeAttempt (buf : List Nat) : ParseRes × List Nat :=
  (parseB buf, buf)

/-- Convenience predicate: does a stored datum hold the `List` kind
(the `matches!(stored_value.data, StoredData::List(_))` test of
`Storage::blpop`). -/
def StoredData.isList : StoredData → Bool
  | .list _ => true
  | _ => false

/-- Does a decode outcome represent a Rust panic. -/
def ParseRes.isPanic : ParseRes → Bool
  | .panicked => true
  | _ => false

/-- Does an array-loop outcome represent a Rust panic. -/
def LoopRes.isPanic : LoopRes → Bool
  | .lpanic => true
  | _ => false

/-- Definition following the wording of the spec for LRANGE (claim C8):
`s = max(0, start + len)` if `start < 0` else `start`;
`e = max(0, end + len)` if `end < 0` else `min(end, len - 1)`; empty
whenever `s > e` or `s ≥ len`; otherwise the inclusive slice
`list[s..=e]`.  Stated over `Int` indices; compared below against the
source-derived `lrangeS`. -/
def specLRange (l : List String) (start stop : Int) : List String :=
  let len : Int := l.length
  let s : Int := if start < 0 then max 0 (start + len) else start
  let e : Int := if stop < 0 then max 0 (stop + len) else min stop (len - 1)
  if s > e ∨ s ≥ len then []
  else (l.drop s.toNat).take (e - s + 1).toNat

/-! ### Keyspace helper lemmas -/

theorem lookupS_insertS_self (k : String) (v : StoredValue) (st : Store) :
    lookupS k (insertS k v st) = some v := by
  simp [insertS, lookupS]

theorem eraseKey_insertS (k : String) (v : StoredValue) (st : Store) :
    eraseKey k (insertS k v st) = eraseKey k st := by
  rw [insertS]
  simp [eraseKey, List.filter_filter]

theorem insertS_insertS (k : String) (v w : StoredValue) (st : Store) :
    insertS k v (insertS k w st) = insertS k v st := by
  conv_lhs => rw [insertS, eraseKey_insertS]
  rw [insertS]

/-! ### C1 — GET on non-String kinds -/

/-- Claim C1 counterexample: with key `k` holding a List, GET replies with
the null bulk `$-1\r\n`, not with the WrongType error the claim
requires. -/
theorem C1_get_list_gives_nullbulk :
    (handleGet [.bulkString (some "GET"), .bulkString (some "k")]
        [("k", ⟨.list ["a"], none⟩)] 0).1 = "$-1\r\n" ∧
    (("$-1\r\n" == "-" ++ WRONGTYPE ++ "\r\n") = false) := by
  exact ⟨rfl, by decide⟩

/-- Claim C1 as amended: GET returns the stored byte-string when the
current (non-expired) kind is String, and the null bulk both when the key
is absent and when the kind is List or Stream — no WrongType error is
produced for non-String kinds. -/
theorem C1_get_amended :
    ∀ (st : Store) (now : Instant) (k : String),
      (∀ sv b, lookupS k st = some sv → sv.isExpired now = false →
        sv.data = .str b →
        handleGet [.bulkString (some "GET"), .bulkString (some k)] st now
          = (bulkReply b, st)) ∧
      (∀ sv l, lookupS k st = some sv → sv.isExpired now = false →
        sv.data = .list l →
        handleGet [.bulkString (some "GET"), .bulkString (some k)] st now
          = ("$-1\r\n", st)) ∧
      (∀ sv es, lookupS k st = some sv → sv.isExpired now = false →
        sv.data = .stream es →
        handleGet [.bulkString (some "GET"), .bulkString (some k)] st now
          = ("$-1\r\n", st)) ∧
      (lookupS k st = none →
        handleGet [.bulkString (some "GET"), .bulkString (some k)] st now
          = ("$-1\r\n", st)) := by
  intro st now k
  refine ⟨?_, ?_, ?_, ?_⟩
  · intro sv b hl he hd
    simp [handleGet, extractKey, getS, hl, he, StoredValue.asString, hd]
  · intro sv l hl he hd
    simp [handleGet, extractKey, getS, hl, he, StoredValue.asString, hd]
  · intro sv es hl he hd
    simp [handleGet, extractKey, getS, hl, he, StoredValue.asString, hd]
  · intro hl
    simp [handleGet, extractKey, getS, hl]

/-- Witness for C1_get_amended at concrete inputs. -/
theorem C1_get_amended_witness :
    (lookupS "k" [("k", ⟨.str "v", none⟩)] = some ⟨.str "v", none⟩ ∧
      handleGet [.bulkString (some "GET"), .bulkString (some "k")]
        [("k", ⟨.str "v", none⟩)] 0 = (bulkReply "v", [("k", ⟨.str "v", none⟩)])) ∧
    (lookupS "k" [("k", ⟨.list ["a"], none⟩)] = some ⟨.list ["a"], none⟩ ∧
      handleGet [.bulkString (some "GET"), .bulkString (some "k")]
        [("k", ⟨.list ["a"], none⟩)] 0 = ("$-1\r\n", [("k", ⟨.list ["a"], none⟩)])) ∧
    (lookupS "k" ([] : Store) = none ∧
      handleGet [.bulkString (some "GET"), .bulkString (some "k")] [] 0
        = ("$-1\r\n", [])) := by
  refine ⟨⟨rfl, ?_⟩, ⟨rfl, ?_⟩, ⟨rfl, ?_⟩⟩
  · exact (C1_get_amended [("k", ⟨.str "v", none⟩)] 0 "k").1 ⟨.str "v", none⟩ "v" rfl rfl rfl
  · exact (C1_get_amended [("k", ⟨.list ["a"], none⟩)] 0 "k").2.1 ⟨.list ["a"], none⟩ ["a"] rfl rfl rfl
  · exact (C1_get_amended [] 0 "k").2.2.2 rfl

/-! ### C2 — XADD with explicit ids -/

/-- Claim C2 failing input, evaluated on the code: `XADD S 0-1 f v`
against the empty store.  The argument checks and id extraction succeed,
but `Storage::xadd` is a `todo!()` stub, so the call panics (modelled as
`none`) at every write instant: the program produces no reply at all —
in particular never the claimed `$3\r\n0-1\r\n` — and the follow-up
`0-0` command can never be reached.  The claim itself matches the spec
scenario and the repo's own `#[ignore]`d tests
(`test_xadd_create_stream_with_passed_id` asserts `Ok("0-1")` for this
very input), so the stub is the bug. -/
theorem C2_xadd_todo_panics :
    ∀ now : Instant,
      handleXadd [.bulkString (some "XADD"), .bulkString (some "S"),
          .bulkString (some "0-1"), .bulkString (some "f"), .bulkString (some "v")]
        [] now = none := by
  intro now
  rfl

/-! ### C3 — observation of expired keys -/

/-- Claim C3 counterexample: key `k` expired at instant 5, observed at
instant 10.  EXISTS still reports it as present, and TYPE (which does
report `"none"`) leaves the expired entry in the keyspace instead of
removing it. -/
theorem C3_expired_exists_and_type :
    existsS [("k", ⟨.str "v", some 5⟩)] "k" = true ∧
    (getTypeS [("k", ⟨.str "v", some 5⟩)] 10 "k").1 = "none" ∧
    (getTypeS [("k", ⟨.str "v", some 5⟩)] 10 "k").2 = [("k", ⟨.str "v", some 5⟩)] := by
  exact ⟨rfl, rfl, rfl⟩

/-- Claim C3 as amended: GET, LRANGE, LLEN, LPOP and LPOP-with-count
observe an expired key as absent and remove the expired entry at that
first observation; TYPE observes it as absent (reports `"none"`) but does
not remove the entry; EXISTS performs no expiry check at all and reports
the expired key as present. -/
theorem C3_lazy_expiry_amended :
    ∀ (st : Store) (now : Instant) (k : String) (sv : StoredValue),
      lookupS k st = some sv → sv.isExpired now = true →
      getS st now k = (none, eraseKey k st) ∧
      (∀ start stop, lrangeS st now k start stop = (.ok [], eraseKey k st)) ∧
      llenS st now k = (.ok 0, eraseKey k st) ∧
      lpopS st now k = (.ok none, eraseKey k st) ∧
      (∀ c, lpopMultipleS st now k c = (.ok none, eraseKey k st)) ∧
      getTypeS st now k = ("none", st) ∧
      existsS st k = true := by
  intro st now k sv hl he
  refine ⟨?_, ?_, ?_, ?_, ?_, ?_, ?_⟩
  · simp [getS, hl, he]
  · intro start stop; simp [lrangeS, hl, he]
  · simp [llenS, hl, he]
  · simp [lpopS, hl, he]
  · intro c; simp [lpopMultipleS, hl, he]
  · simp [getTypeS, hl, he]
  · simp [existsS, hl]

/-- Witness for C3_lazy_expiry_amended at a concrete expired entry. -/
theorem C3_lazy_expiry_amended_witness :
    lookupS "k" [("k", ⟨.str "v", some 5⟩)] = some ⟨.str "v", some 5⟩ ∧
    (⟨.str "v", some 5⟩ : StoredValue).isExpired 10 = true ∧
    getS [("k", ⟨.str "v", some 5⟩)] 10 "k"
      = (none, eraseKey "k" [("k", ⟨.str "v", some 5⟩)]) ∧
    existsS [("k", ⟨.str "v", some 5⟩)] "k" = true := by
  have h := C3_lazy_expiry_amended [("k", ⟨.str "v", some 5⟩)] 10 "k"
    ⟨.str "v", some 5⟩ rfl rfl
  exact ⟨rfl, rfl, h.1, h.2.2.2.2.2.2⟩

/-! ### C4 — wakeups per pushed element -/

theorem findIdx?_append_first {α} (p : α → Bool) (l1 : List α) (x : α) (l2 : List α)
    (h1 : ∀ y ∈ l1, p y = false) (hx : p x = true) :
    (l1 ++ x :: l2).findIdx? p = some l1.length := by
  induction l1 with
  | nil => simp [List.findIdx?, hx]
  | cons a l ih =>
      have ha : p a = false := h1 a (by simp)
      have := ih (fun y hy => h1 y (by simp [hy]))
      simp [List.findIdx?, ha, this]

theorem eraseIdx_append_middle {α} (l1 : List α) (x : α) (l2 : List α) :
    (l1 ++ x :: l2).eraseIdx l1.length = l1 ++ l2 := by
  induction l1 with
  | nil => simp [List.eraseIdx]
  | cons a l ih => simp [List.eraseIdx, ih]

theorem getElem?_append_middle {α} (l1 : List α) (x : α) (l2 : List α) :
    (l1 ++ x :: l2)[l1.length]? = some x := by
  induction l1 with
  | nil => simp
  | cons a l ih => simpa using ih

/-- Claim C4 counterexample: waiters W₁ (wid 1) and W₂ (wid 2) are both
enqueued for key `k`; a single `RPUSH k a b` delivers only `a` to W₁ —
W₂ stays enqueued and `b` stays in the list, contradicting the claimed
one-wakeup-per-element delivery of `b` to W₂ before the push returns. -/
theorem C4_single_wakeup_counterexample :
    rpushW "k" ["a", "b"] 0 ⟨[], [⟨1, ["k"]⟩, ⟨2, ["k"]⟩]⟩
      = (.ok 2, ⟨[("k", ⟨.list ["b"], none⟩)], [⟨2, ["k"]⟩]⟩, [(1, "k", "a")]) ∧
    (([(1, "k", "a")] == [(1, "k", "a"), (2, "k", "b")]) = false) := by
  exact ⟨rfl, by decide⟩

/-- Claim C4 as amended: `Storage::rpush` calls `notify_waiters` exactly
once per push call, regardless of how many elements were pushed.  With
waiters enqueued for an empty key `k`, pushing `v :: vs` (vs nonempty)
delivers only the head `v` to the first eligible waiter `w`; all other
waiters stay enqueued and the remaining elements `vs` stay in the
list. -/
theorem C4_one_wakeup_per_push :
    ∀ (now : Instant) (st : Store) (ws1 ws2 : List Waiter) (w : Waiter)
      (k v : String) (vs : List String),
      lookupS k st = none →
      (∀ w' ∈ ws1, (k ∈ w'.keys) = False) →
      k ∈ w.keys →
      vs ≠ [] →
      rpushW k (v :: vs) now ⟨st, ws1 ++ w :: ws2⟩
        = (.ok (vs.length + 1), ⟨insertS k ⟨.list vs, none⟩ st, ws1 ++ ws2⟩,
            [(w.wid, k, v)]) := by
  intro now st ws1 ws2 w k v vs habs hws1 hw hvs
  have hfind : (ws1 ++ w :: ws2).findIdx? (fun w' => k ∈ w'.keys) = some ws1.length := by
    refine findIdx?_append_first _ ws1 w ws2 (fun y hy => ?_) (by simp [hw])
    simp [hws1 y hy]
  have hlk : lookupS k (insertS k ⟨.list (v :: vs), none⟩ st)
      = some ⟨.list (v :: vs), none⟩ := lookupS_insertS_self ..
  have hlpop : lpopS (insertS k ⟨.list (v :: vs), none⟩ st) now k
      = (.ok (some v), insertS k ⟨.list vs, none⟩ st) := by
    rw [lpopS, hlk]
    simp [StoredValue.isExpired, List.isEmpty_iff, hvs, insertS_insertS]
  simp only [rpushW, habs, notifyWaitersS, hfind, eraseIdx_append_middle,
    getElem?_append_middle, hlpop, List.length_cons, Option.toList]

/-- Witness for C4_one_wakeup_per_push at concrete inputs. -/
theorem C4_one_wakeup_per_push_witness :
    rpushW "k" ["a", "b"] 3 ⟨[], [⟨7, ["q", "k"]⟩, ⟨8, ["k"]⟩]⟩
      = (.ok 2, ⟨insertS "k" ⟨.list ["b"], none⟩ [], [⟨8, ["k"]⟩]⟩,
          [(7, "k", "a")]) := by
  exact C4_one_wakeup_per_push 3 [] [] [⟨8, ["k"]⟩] ⟨7, ["q", "k"]⟩ "k" "a" ["b"]
    rfl (by simp) (by simp) (by simp)

/-! ### C5 — SET expiration options -/

/-- Claim C5 counterexample: SET with both `EX 10` and `PX 5000` is not
rejected with a syntax error; it succeeds with `+OK` and the later PX
option wins (expiry 5000 ms after the write instant 0). -/
theorem C5_ex_px_together_accepted :
    handleSet [.bulkString (some "SET"), .bulkString (some "k"),
        .bulkString (some "v"), .bulkString (some "EX"), .bulkString (some "10"),
        .bulkString (some "PX"), .bulkString (some "5000")] [] 0
      = ("+OK\r\n", [("k", ⟨.str "v", some 5000⟩)]) ∧
    (("+OK\r\n" == "-ERR syntax error\r\n") = false) := by
  exact ⟨rfl, by decide⟩

/-- Claim C5 as amended: supplying both EX and PX is accepted, the later
option overriding the earlier (no Syntax error is raised); an EX or PX
argument that does not parse as a strictly positive integer is rejected
with the invalid-expire-time error; and on any reply other than `+OK`
the keyspace is left unchanged. -/
theorem C5_set_options_amended :
    (∀ (elements : List RespValue) (st : Store) (now : Instant),
      (handleSet elements st now).1 = "+OK\r\n" ∨
      (handleSet elements st now).2 = st) ∧
    (∀ (st : Store) (now : Instant) (e0 k0 : RespValue) (v : String)
       (opt bad : RespValue) (rest : List RespValue),
      (extractCommandName opt = "EX" ∨ extractCommandName opt = "PX") →
      (∀ i, extractIntegerFromRespValue bad = some i → i ≤ 0) →
      handleSet (e0 :: k0 :: .bulkString (some v) :: opt :: bad :: rest) st now
        = ("-ERR invalid expire time in \x27SET\x27 command\r\n", st)) ∧
    (∀ (st : Store) (now : Instant) (e0 k0 : RespValue) (v : String) (a b : Int),
      0 < a → 0 < b →
      handleSet (e0 :: k0 :: .bulkString (some v) ::
          .bulkString (some "EX") :: .integer a ::
          .bulkString (some "PX") :: .integer b :: []) st now
        = ("+OK\r\n", setPxS (extractKey k0) v b.toNat now st)) ∧
    (∀ (st : Store) (now : Instant) (e0 k0 : RespValue) (v : String) (a b : Int),
      0 < a → 0 < b →
      handleSet (e0 :: k0 :: .bulkString (some v) ::
          .bulkString (some "PX") :: .integer a ::
          .bulkString (some "EX") :: .integer b :: []) st now
        = ("+OK\r\n", setExS (extractKey k0) v b.toNat now st)) := by
  refine ⟨?_, ?_, ?_, ?_⟩
  · intro elements st now
    simp only [handleSet]
    split
    · right; rfl
    · split
      · simp only [handleSet.handleSetGo]
        split
        · right; rfl
        · left; rfl
        · left; rfl
        · left; rfl
      · simp only [handleSet.handleSetGo]
        split
        · right; rfl
        · left; rfl
        · left; rfl
        · left; rfl
      · right; rfl
  · intro st now e0 k0 v opt bad rest hopt hbad
    have hbad' : ∀ s, extractIntegerFromRespValue bad = some s → ¬ (s > 0) := by
      intro s hs
      exact not_lt.mpr (hbad s hs)
    rw [handleSet]
    have hlen : ¬ ((e0 :: k0 :: RespValue.bulkString (some v) :: opt :: bad :: rest).length < 3) := by
      simp
    rw [if_neg hlen]
    show handleSet.handleSetGo _ v _ st now = _
    rw [handleSet.handleSetGo]
    have hopts : parseSetOpts (opt :: bad :: rest) none
        = .error "-ERR invalid expire time in \x27SET\x27 command\r\n" := by
      rw [parseSetOpts]
      rcases hopt with h | h
      · rw [h]
        simp only [if_pos rfl]
        cases hi : extractIntegerFromRespValue bad with
        | none => rfl
        | some s => simp [if_neg (hbad' s hi)]
      · rw [h]
        have : ¬ ("PX" = "EX") := by decide
        rw [if_neg this, if_pos rfl]
        cases hi : extractIntegerFromRespValue bad with
        | none => rfl
        | some s => simp [if_neg (hbad' s hi)]
    simp only [List.drop_succ_cons, List.drop_zero, List.getD_cons_succ, List.getD_cons_zero, hopts]
  · intro st now e0 k0 v a b ha hb
    rw [handleSet]
    have hlen : ¬ ((e0 :: k0 :: RespValue.bulkString (some v) ::
        RespValue.bulkString (some "EX") :: RespValue.integer a ::
        RespValue.bulkString (some "PX") :: RespValue.integer b :: []).length < 3) := by
      simp
    rw [if_neg hlen]
    show handleSet.handleSetGo _ v _ st now = _
    rw [handleSet.handleSetGo]
    have hopts : parseSetOpts (RespValue.bulkString (some "EX") :: RespValue.integer a ::
        RespValue.bulkString (some "PX") :: RespValue.integer b :: []) none
        = .ok (some (b.toNat, true)) := by
      have hEX : extractCommandName (RespValue.bulkString (some "EX")) = "EX" := rfl
      have hPX : extractCommandName (RespValue.bulkString (some "PX")) = "PX" := rfl
      simp [parseSetOpts, hEX, hPX, extractIntegerFromRespValue, ha, hb]
    simp only [List.drop_succ_cons, List.drop_zero, List.getD_cons_succ, List.getD_cons_zero, hopts]
  · intro st now e0 k0 v a b ha hb
    rw [handleSet]
    have hlen : ¬ ((e0 :: k0 :: RespValue.bulkString (some v) ::
        RespValue.bulkString (some "PX") :: RespValue.integer a ::
        RespValue.bulkString (some "EX") :: RespValue.integer b :: []).length < 3) := by
      simp
    rw [if_neg hlen]
    show handleSet.handleSetGo _ v _ st now = _
    rw [handleSet.handleSetGo]
    have hopts : parseSetOpts (RespValue.bulkString (some "PX") :: RespValue.integer a ::
        RespValue.bulkString (some "EX") :: RespValue.integer b :: []) none
        = .ok (some (b.toNat, false)) := by
      have hEX : extractCommandName (RespValue.bulkString (some "EX")) = "EX" := rfl
      have hPX : extractCommandName (RespValue.bulkString (some "PX")) = "PX" := rfl
      simp [parseSetOpts, hEX, hPX, extractIntegerFromRespValue, ha, hb]
    simp only [List.drop_succ_cons, List.drop_zero, List.getD_cons_succ, List.getD_cons_zero, hopts]

/-- Witness for C5_set_options_amended at concrete inputs. -/
theorem C5_set_options_amended_witness :
    ((handleSet [.bulkString (some "SET"), .bulkString (some "k")] [] 0).1
        = "+OK\r\n" ∨
      (handleSet [.bulkString (some "SET"), .bulkString (some "k")] [] 0).2
        = ([] : Store)) ∧
    handleSet [.bulkString (some "SET"), .bulkString (some "k"),
        .bulkString (some "v"), .bulkString (some "EX"), .bulkString (some "0")] [] 0
      = ("-ERR invalid expire time in \x27SET\x27 command\r\n", []) ∧
    handleSet [.bulkString (some "SET"), .bulkString (some "k"),
        .bulkString (some "v"), .bulkString (some "EX"), .integer 10,
        .bulkString (some "PX"), .integer 5000] [] 0
      = ("+OK\r\n", setPxS "k" "v" 5000 0 []) ∧
    handleSet [.bulkString (some "SET"), .bulkString (some "k"),
        .bulkString (some "v"), .bulkString (some "PX"), .integer 5000,
        .bulkString (some "EX"), .integer 10] [] 0
      = ("+OK\r\n", setExS "k" "v" 10 0 []) := by
  refine ⟨?_, ?_, ?_, ?_⟩
  · exact C5_set_options_amended.1 [.bulkString (some "SET"), .bulkString (some "k")] [] 0
  · exact C5_set_options_amended.2.1 [] 0 (.bulkString (some "SET"))
      (.bulkString (some "k")) "v" (.bulkString (some "EX")) (.bulkString (some "0")) []
      (Or.inl (by decide)) (by decide)
  · exact C5_set_options_amended.2.2.1 [] 0 (.bulkString (some "SET"))
      (.bulkString (some "k")) "v" 10 5000 (by decide) (by decide)
  · exact C5_set_options_amended.2.2.2 [] 0 (.bulkString (some "SET"))
      (.bulkString (some "k")) "v" 5000 10 (by decide) (by decide)

/-! ### C6 — BLPOP key scan order -/

/-- Claim C6 counterexample: `BLPOP k1 k2` where `k1` holds the non-empty
list `["x"]` and `k2` holds a String.  The scan pops `x` from `k1` and
returns immediately; no WrongType error is raised even though `k2` holds
a non-List value. -/
theorem C6_blpop_pops_before_type_error :
    blpopFastS 0 [("k1", ⟨.list ["x"], none⟩), ("k2", ⟨.str "s", none⟩)] ["k1", "k2"]
      = .popped "k1" "x" [("k2", ⟨.str "s", none⟩)] ∧
    ((blpopFastS 0 [("k1", ⟨.list ["x"], none⟩), ("k2", ⟨.str "s", none⟩)] ["k1", "k2"]
        == .errp WRONGTYPE) = false) := by
  exact ⟨rfl, by decide⟩

/-- Claim C6 as amended: BLPOP scans the requested keys left to right in a
single pass, checking the kind and popping at each key as it goes: a key
holding a non-List value produces WrongType only when the scan reaches it,
and a non-empty list at an earlier key is popped and returned immediately,
the later keys never being examined. -/
theorem C6_blpop_scan_amended :
    (∀ (now : Instant) (st : Store) (k : String) (rest : List String)
       (sv : StoredValue),
      lookupS k st = some sv → sv.data.isList = false →
      blpopFastS now st (k :: rest) = .errp WRONGTYPE) ∧
    (∀ (now : Instant) (st : Store) (k : String) (rest : List String)
       (sv : StoredValue) (x : String) (xs : List String),
      lookupS k st = some sv → sv.data = .list (x :: xs) →
      sv.isExpired now = false →
      blpopFastS now st (k :: rest)
        = .popped k x
            (if xs.isEmpty then eraseKey k st
             else insertS k ⟨.list xs, sv.expiredAt⟩ st)) := by
  constructor
  · intro now st k rest sv hl hd
    cases hsv : sv.data with
    | str b => simp [blpopFastS, hl, hsv]
    | stream es => simp [blpopFastS, hl, hsv]
    | list l => rw [hsv] at hd; simp [StoredData.isList] at hd
  · intro now st k rest sv x xs hl hd he
    simp only [blpopFastS, hl, hd, lpopS, he]
    cases hxs : xs.isEmpty <;> simp [hxs]

/-- Witness for C6_blpop_scan_amended at concrete inputs. -/
theorem C6_blpop_scan_amended_witness :
    blpopFastS 0 [("k2", ⟨.str "s", none⟩)] ["k2", "k1"] = .errp WRONGTYPE ∧
    blpopFastS 0 [("k1", ⟨.list ["x", "y"], none⟩), ("k2", ⟨.str "s", none⟩)]
        ["k1", "k2"]
      = .popped "k1" "x"
          (insertS "k1" ⟨.list ["y"], none⟩
            [("k1", ⟨.list ["x", "y"], none⟩), ("k2", ⟨.str "s", none⟩)]) := by
  constructor
  · exact C6_blpop_scan_amended.1 0 _ "k2" ["k1"] ⟨.str "s", none⟩ rfl rfl
  · exact C6_blpop_scan_amended.2 0 _ "k1" ["k2"] ⟨.list ["x", "y"], none⟩ "x" ["y"]
      rfl rfl rfl

/-! ### C7 — LPOP with a negative count -/

/-- Claim C7 failing input, evaluated on the code: `LPOP list -1` against
the stored list `["a", "b", "c"]`.  The parsed count `-1` passes the
handler unchecked, is cast through `isize`/`usize` to `2 ^ 64 - 1`, and
`lpop_multiple` is called: all three elements are popped and the key is
deleted, instead of the claimed client-error rejection that leaves the
list unchanged.  The code's own parse-failure message
(`value is out of range, must be positive`) documents the intended
positivity requirement. -/
theorem C7_lpop_negative_count_drains_list :
    handleLpop [.bulkString (some "LPOP"), .bulkString (some "list"),
        .bulkString (some "-1")] [("list", ⟨.list ["a", "b", "c"], none⟩)] 0
      = ("*3\r\n$1\r\na\r\n$1\r\nb\r\n$1\r\nc\r\n", []) ∧
    usizeOfInt (-1) = 18446744073709551615 := by
  exact ⟨rfl, rfl⟩

/-! ### C8 — LRANGE normalization -/

/-- Claim C8: on a stored (hence non-empty) non-expired list, LRANGE
returns exactly the slice described by the spec normalization
(`specLRange`), and it returns the empty array for an absent key; the
store is unchanged in both cases. -/
theorem C8_lrange_matches_spec :
    (∀ (st : Store) (now : Instant) (k : String) (sv : StoredValue)
       (l : List String) (start stop : Int),
      lookupS k st = some sv → sv.data = .list l → sv.isExpired now = false →
      l ≠ [] →
      lrangeS st now k start stop = (.ok (specLRange l start stop), st)) ∧
    (∀ (st : Store) (now : Instant) (k : String) (start stop : Int),
      lookupS k st = none → lrangeS st now k start stop = (.ok [], st)) := by
  constructor
  · intro st now k sv l start stop hl hd he hne
    have hpos : 0 < l.length := List.length_pos.mpr hne
    have hs : (if start < 0 then (max ((l.length : Int) + start) 0).toNat
          else start.toNat)
        = (if start < 0 then max 0 (start + (l.length : Int)) else start).toNat := by
      split_ifs <;> omega
    have he2 : (if stop < 0 then (max ((l.length : Int) + stop) 0).toNat
          else if stop ≥ (l.length : Int) then l.length - 1 else stop.toNat)
        = (if stop < 0 then max 0 (stop + (l.length : Int))
           else min stop ((l.length : Int) - 1)).toNat := by
      split_ifs <;> omega
    have hg0 : 0 ≤ (if start < 0 then max 0 (start + (l.length : Int)) else start) := by
      split_ifs <;> omega
    have hg1 : 0 ≤ (if stop < 0 then max 0 (stop + (l.length : Int))
        else min stop ((l.length : Int) - 1)) := by
      split_ifs <;> omega
    simp only [lrangeS, hl, hd, he, Bool.false_eq_true, if_false]
    rw [hs, he2, specLRange]
    by_cases hc : (if start < 0 then max 0 (start + (l.length : Int)) else start) >
        (if stop < 0 then max 0 (stop + (l.length : Int))
         else min stop ((l.length : Int) - 1)) ∨
        (if start < 0 then max 0 (start + (l.length : Int)) else start) ≥ (l.length : Int)
    · rw [if_pos (by omega), if_pos hc]
    · rw [if_neg (by omega), if_neg hc]
      have heq : (if stop < 0 then max 0 (stop + (l.length : Int))
            else min stop ((l.length : Int) - 1)).toNat + 1 -
          (if start < 0 then max 0 (start + (l.length : Int)) else start).toNat
          = ((if stop < 0 then max 0 (stop + (l.length : Int))
              else min stop ((l.length : Int) - 1)) -
             (if start < 0 then max 0 (start + (l.length : Int)) else start) + 1).toNat := by
        omega
      rw [heq]
  · intro st now k start stop hl
    simp [lrangeS, hl]

/-- Witness for C8_lrange_matches_spec at concrete inputs. -/
theorem C8_lrange_matches_spec_witness :
    (["a", "b", "c", "d", "e"] : List String) ≠ [] ∧
    lrangeS [("l", ⟨.list ["a", "b", "c", "d", "e"], none⟩)] 0 "l" (-2) (-1)
      = (.ok (specLRange ["a", "b", "c", "d", "e"] (-2) (-1)),
          [("l", ⟨.list ["a", "b", "c", "d", "e"], none⟩)]) ∧
    specLRange ["a", "b", "c", "d", "e"] (-2) (-1) = ["d", "e"] ∧
    lrangeS [] 0 "absent" 0 5 = (.ok [], []) := by
  refine ⟨by decide, ?_, by decide, ?_⟩
  · exact C8_lrange_matches_spec.1 _ 0 "l" ⟨.list ["a", "b", "c", "d", "e"], none⟩
      _ (-2) (-1) rfl rfl rfl (by decide)
  · exact C8_lrange_matches_spec.2 [] 0 "absent" 0 5 rfl

/-! ### C9 — decoder restartability -/

/-- Claim C9: `parse` borrows the decoder immutably, so an attempt that
reports Incomplete leaves the byte buffer unchanged; and after an
Incomplete on a prefix, feeding the remaining bytes and retrying yields
exactly the `Complete(value, n)` of decoding the whole frame fed at
once. -/
theorem C9_decoder_restartable :
    ∀ (full : List Nat) (k : Nat) (v : RValue) (n : Nat),
      parseB full = .complete v n →
      parseB (full.take k) = .incomplete →
      decodeAttempt (full.take k) = (.incomplete, full.take k) ∧
      parseB (feedB (full.take k) (full.drop k)) = .complete v n := by
  intro full k v n hfull hpart
  constructor
  · rw [decodeAttempt, hpart]
  · rw [feedB, List.take_append_drop, hfull]

/-- Witness for C9_decoder_restartable: the frame `+OK\r\n` split after
three bytes. -/
theorem C9_decoder_restartable_witness :
    parseB [43, 79, 75, 13, 10] = .complete (.simple [79, 75]) 5 ∧
    parseB ([43, 79, 75, 13, 10].take 3) = .incomplete ∧
    (decodeAttempt ([43, 79, 75, 13, 10].take 3)
        = (.incomplete, [43, 79, 75, 13, 10].take 3) ∧
      parseB (feedB ([43, 79, 75, 13, 10].take 3) ([43, 79, 75, 13, 10].drop 3))
        = .complete (.simple [79, 75]) 5) := by
  exact ⟨rfl, rfl, C9_decoder_restartable [43, 79, 75, 13, 10] 3 (.simple [79, 75]) 5 rfl rfl⟩

/-! ### C10 — the decoder never panics -/

theorem parseSimpleStringB_no_panic (buf : List Nat) (pos : Nat) :
    (parseSimpleStringB buf pos).isPanic = false := by
  rw [parseSimpleStringB]
  split
  · rfl
  · rename_i h
    have hle : pos + 1 ≤ buf.length := by
      simp [hasBytes] at h
      omega
    rw [findCrlf, if_pos hle]
    cases hf : findCrlfIn (buf.drop (pos + 1)) (pos + 1) with
    | none => rfl
    | some crlfPos =>
        dsimp only
        cases hg : getSlice buf (pos + 1) crlfPos with
        | none => rfl
        | some content =>
            dsimp only
            cases hv : validUtf8 content <;> simp [hv, ParseRes.isPanic]

theorem parseErrorB_no_panic (buf : List Nat) (pos : Nat) :
    (parseErrorB buf pos).isPanic = false := by
  rw [parseErrorB]
  split
  · rfl
  · rename_i h
    have hle : pos + 1 ≤ buf.length := by
      simp [hasBytes] at h
      omega
    rw [findCrlf, if_pos hle]
    cases hf : findCrlfIn (buf.drop (pos + 1)) (pos + 1) with
    | none => rfl
    | some crlfPos =>
        dsimp only
        cases hg : getSlice buf (pos + 1) crlfPos with
        | none => rfl
        | some content =>
            dsimp only
            cases hv : validUtf8 content <;> simp [hv, ParseRes.isPanic]

theorem parseIntegerB_no_panic (buf : List Nat) (pos : Nat) :
    (parseIntegerB buf pos).isPanic = false := by
  rw [parseIntegerB]
  split
  · rfl
  · rename_i h
    have hle : pos + 1 ≤ buf.length := by
      simp [hasBytes] at h
      omega
    rw [findCrlf, if_pos hle]
    cases hf : findCrlfIn (buf.drop (pos + 1)) (pos + 1) with
    | none => rfl
    | some crlfPos =>
        dsimp only
        cases hg : getSlice buf (pos + 1) crlfPos with
        | none => rfl
        | some content =>
            dsimp only
            cases hi : parseI64Bytes content <;> rfl

theorem parseBulkStringB_no_panic (buf : List Nat) (pos : Nat) :
    (parseBulkStringB buf pos).isPanic = false := by
  rw [parseBulkStringB]
  split
  · rfl
  · rename_i h
    have hle : pos + 1 ≤ buf.length := by
      simp [hasBytes] at h
      omega
    rw [findCrlf, if_pos hle]
    cases hf : findCrlfIn (buf.drop (pos + 1)) (pos + 1) with
    | none => rfl
    | some crlfPos =>
        dsimp only
        cases hg : getSlice buf (pos + 1) crlfPos with
        | none => rfl
        | some lengthBytes =>
            dsimp only
            cases hi : parseI64Bytes lengthBytes with
            | none => rfl
            | some len =>
                dsimp only
                by_cases h1 : len = -1
                · rw [if_pos h1]; rfl
                · rw [if_neg h1]
                  by_cases h2 : len < -1
                  · rw [if_pos h2]; rfl
                  · rw [if_neg h2]
                    by_cases h3 : hasBytes buf (crlfPos + 2 + len.toNat) 2 = true
                    · rw [if_neg (fun hc => hc h3)]
                      have hce : crlfPos + 2 + len.toNat + 2 ≤ buf.length := by
                        simpa [hasBytes] using h3
                      cases hg2 : getSlice buf (crlfPos + 2) (crlfPos + 2 + len.toNat) with
                      | none => rfl
                      | some content =>
                          dsimp only
                          rw [getSlice, if_pos ⟨by omega, hce⟩]
                          dsimp only
                          split_ifs <;> rfl
                    · rw [if_pos h3]; rfl

theorem parseArrayLoopB_no_panic (pv : Nat → ParseRes)
    (h : ∀ p, (pv p).isPanic = false) :
    ∀ (n curPos : Nat) (acc : List RValue),
      (parseArrayLoopB pv n curPos acc).isPanic = false := by
  intro n
  induction n with
  | zero => intro curPos acc; rfl
  | succ m ih =>
      intro curPos acc
      rw [parseArrayLoopB]
      cases hp : pv curPos with
      | complete v c => exact ih _ _
      | incomplete => rfl
      | perror e => rfl
      | panicked =>
          have hpv := h curPos
          rw [hp] at hpv
          simp [ParseRes.isPanic] at hpv
      | capacityOverflow => rfl

theorem parseArrayB_no_panic (pv : Nat → ParseRes) (buf : List Nat) (pos : Nat)
    (h : ∀ p, (pv p).isPanic = false) :
    (parseArrayB pv buf pos).isPanic = false := by
  rw [parseArrayB]
  split
  · rfl
  · rename_i hb
    have hle : pos + 1 ≤ buf.length := by
      simp [hasBytes] at hb
      omega
    rw [findCrlf, if_pos hle]
    cases hf : findCrlfIn (buf.drop (pos + 1)) (pos + 1) with
    | none => rfl
    | some crlfPos =>
        dsimp only
        cases hg : getSlice buf (pos + 1) crlfPos with
        | none => rfl
        | some countBytes =>
            dsimp only
            cases hi : parseI64Bytes countBytes with
            | none => rfl
            | some count =>
                dsimp only
                split_ifs with h1 h2 h3 h4
                · rfl
                · rfl
                · rfl
                · rfl
                · cases hloop : parseArrayLoopB pv count.toNat (crlfPos + 2) [] with
                  | done elems endPos => rfl
                  | linc => rfl
                  | lerr e => rfl
                  | lpanic =>
                      have := parseArrayLoopB_no_panic pv h count.toNat (crlfPos + 2) []
                      rw [hloop] at this
                      simp [LoopRes.isPanic] at this
                  | lcap => rfl

theorem parseValueF_no_panic (buf : List Nat) :
    ∀ (fuel pos : Nat), (parseValueF fuel buf pos).isPanic = false := by
  intro fuel
  induction fuel with
  | zero => intro pos; rfl
  | succ f ih =>
      intro pos
      rw [parseValueF]
      split
      · rfl
      · rename_i h
        have hlt : pos < buf.length := by
          simp [hasBytes] at h
          omega
        cases hb : buf[pos]? with
        | none =>
            simp [List.getElem?_eq_none_iff] at hb
            omega
        | some b =>
            dsimp only
            split_ifs with h1 h2 h3 h4 h5
            · exact parseSimpleStringB_no_panic buf pos
            · exact parseErrorB_no_panic buf pos
            · exact parseIntegerB_no_panic buf pos
            · exact parseBulkStringB_no_panic buf pos
            · exact parseArrayB_no_panic (parseValueF f buf) buf pos ih
            · rfl

/-- Claim C10 counterexample: the 22-byte input
`*4611686018427387904\r\n` (an array header with count `2 ^ 62`).
`parse_i64` accepts the count, and `parse_array` then runs
`Vec::with_capacity(2 ^ 62)`, whose requested capacity of `2 ^ 67` bytes
exceeds `isize::MAX`: the program panics deterministically with
`capacity overflow`, independent of available memory — the decode
attempt does not return Complete, Incomplete or Error. -/
theorem C10_capacity_overflow_panic :
    parseB [42, 52, 54, 49, 49, 54, 56, 54, 48, 49, 56, 52, 50, 55, 51, 56,
        55, 57, 48, 52, 13, 10]
      = .capacityOverflow ∧
    4611686018427387904 * respValueSize > 2 ^ 63 - 1 := by
  exact ⟨rfl, by decide⟩

/-- Claim C10 as amended: every raw buffer access of the decoder is
bounds-guarded — the type-prefix index, the `find_crlf` slice, and in
particular the `.unwrap()` reading the two trailing-CRLF bytes in
bulk-string parsing (guarded by `has_bytes(content_end, 2)`) can never
fire, for every buffer content, position and fuel.  The single panic a
decode attempt can still reach is `parse_array`'s deterministic
`Vec::with_capacity` capacity overflow on a huge element count; on every
other path parse returns Complete, Incomplete or Error. -/
theorem C10_guarded_accesses_never_panic :
    ∀ (buf : List Nat), (parseB buf).isPanic = false ∧
      ∀ (fuel pos : Nat), (parseValueF fuel buf pos).isPanic = false := by
  intro buf
  exact ⟨parseValueF_no_panic buf (buf.length + 1) 0, parseValueF_no_panic buf⟩

end RedisRust
